import Mathlib

/-!
Shallow embedding of `cobra/solvers/gurobi_solver.py` (a cobrapy solver
interface to gurobipy) together with proofs about it.

Numeric values of the Python code (floats) are modelled as rationals `ℚ`;
Python dictionaries are modelled as association lists with a first-match
lookup; the external gurobipy backend (`Model`, `optimize`, attribute
state) is modelled as an explicit record `LP`, with the opaque numerical
`optimize` call abstracted as an oracle `LP → Except LP LP` (an `Except.error`
models the backend raising an exception, carrying the backend state at the
point of the raise).
-/

deriving instance DecidableEq for Except

namespace GurobiSolver

-- Constants of the external `gurobipy.GRB` namespace used by the source:
-- status codes, variable kinds, constraint senses and objective senses.
namespace GRB

def LOADED : Int := 1
def OPTIMAL : Int := 2
def INFEASIBLE : Int := 3
def UNBOUNDED : Int := 5
def TIME_LIMIT : Int := 9
def CONTINUOUS : Char := 'C'
def INTEGER : Char := 'I'
def EQUAL : Char := '='
def LESS_EQUAL : Char := '<'
def GREATER_EQUAL : Char := '>'
def MAXIMIZE : Int := -1
def MINIMIZE : Int := 1

end GRB

/-- Python `str.upper()` (over the string's character list). -/
def pyUpper (s : String) : String :=
  String.mk (s.data.map Char.toUpper)

/-- A Python parameter value as it appears in the solver parameter
dictionaries: `None`, a bool, an int, a float (as `ℚ`), a string, or a
sparse quadratic component (list of `((row, col), value)` entries, the
model of a scipy matrix's `todok()` view). -/
inductive PValue where
  | pynone
  | bool (b : Bool)
  | int (n : Int)
  | num (q : ℚ)
  | str (s : String)
  | qc (m : List ((Nat × Nat) × ℚ))
deriving DecidableEq, Repr, Inhabited

/-- Python truthiness of a parameter value (used by `update_problem` for
`copy_problem` / `reuse_basis`). -/
def PValue.isTruthy : PValue → Bool
  | .pynone => false
  | .bool b => b
  | .int n => !(decide (n = 0))
  | .num q => !(decide (q = 0))
  | .str s => !(decide (s = ""))
  | .qc m => !m.isEmpty

/-- A Python dict with string keys, modelled as an association list. -/
abbrev Dict := List (String × PValue)

/-- First-match association-list lookup (`d[k]` / `d.get(k)`). -/
def alookup {β : Type} (k : String) : List (String × β) → Option β
  | [] => none
  | p :: rest => if p.1 = k then some p.2 else alookup k rest

/-- Keys of an association list. -/
def keysOf {β : Type} (l : List (String × β)) : List String :=
  l.map Prod.fst

/-- Dict assignment `d[k] = v`: the key is overwritten if present. -/
def dictInsert (d : Dict) (k : String) (v : PValue) : Dict :=
  (k, v) :: d.filter (fun kv => kv.1 ≠ k)

/-- Dict merge `base.update(kw)`: caller-supplied entries win on collision. -/
def dictUpdate (base kw : Dict) : Dict :=
  kw.foldl (fun d kv => dictInsert d kv.1 kv.2) base

/-- Removal of a key from a dict (used when a `**kwargs` dict forwards
everything except one explicitly named parameter). -/
def dictErase (d : Dict) (k : String) : Dict :=
  d.filter (fun kv => kv.1 ≠ k)

/-- Source `parameter_defaults` (module-level dict of canonical defaults). -/
def parameter_defaults : Dict :=
  [("objective_sense", .str "maximize"),
   ("tolerance_optimality", .num (1 / 1000000)),
   ("tolerance_feasibility", .num (1 / 1000000)),
   ("tolerance_integer", .num (1 / 1000000000)),
   ("lp_method", .int 0),
   ("log_file", .str ""),
   ("tolerance_barrier", .num (1 / 100000000))]

/-- Source `parameter_mappings` (canonical name → gurobi parameter name). -/
def parameter_mappings : List (String × String) :=
  [("log_file", "LogFile"),
   ("lp_method", "Method"),
   ("threads", "Threads"),
   ("objective_sense", "ModelSense"),
   ("output_verbosity", "OutputFlag"),
   ("quadratic_precision", "Quad"),
   ("time_limit", "TimeLimit"),
   ("tolerance_feasibility", "FeasibilityTol"),
   ("tolerance_markowitz", "MarkowitzTol"),
   ("tolerance_optimality", "OptimalityTol"),
   ("iteration_limit", "IterationLimit"),
   ("MIP_gap_abs", "MIPGapAbs"),
   ("MIP_gap", "MIPGap")]

/-- Source `variable_kind_dict`. -/
def variable_kind_dict : List (String × Char) :=
  [("continuous", GRB.CONTINUOUS), ("integer", GRB.INTEGER)]

/-- Source `sense_dict`. -/
def sense_dict : List (String × Char) :=
  [("E", GRB.EQUAL), ("L", GRB.LESS_EQUAL), ("G", GRB.GREATER_EQUAL)]

/-- Source `objective_senses`. -/
def objective_senses : List (String × Int) :=
  [("maximize", GRB.MAXIMIZE), ("minimize", GRB.MINIMIZE)]

/-- Source `status_dict` (gurobi status code → canonical status string). -/
def status_dict : List (Int × String) :=
  [(GRB.OPTIMAL, "optimal"), (GRB.INFEASIBLE, "infeasible"),
   (GRB.UNBOUNDED, "unbounded"), (GRB.TIME_LIMIT, "time_limit")]

/-- A `cobra.Reaction` as used by this solver module: bounds, objective
coefficient, variable kind (a string looked up in `variable_kind_dict`),
and its sparse stoichiometry `_metabolites`, keyed here by the metabolite's
index in the model's ordered metabolite sequence. -/
structure Reaction where
  id : String
  lower_bound : ℚ
  upper_bound : ℚ
  objective_coefficient : ℚ
  variable_kind : String
  _metabolites : List (Nat × ℚ)
deriving DecidableEq, Repr, Inhabited

/-- A `cobra.Metabolite` as used by this solver module: constraint sense,
right-hand side `_bound`, and the back-reference set `_reaction`, keyed here
by the reaction's index in the model's ordered reaction sequence. -/
structure Metabolite where
  id : String
  _constraint_sense : String
  _bound : ℚ
  _reaction : List Nat
deriving DecidableEq, Repr, Inhabited

/-- A `cobra.Model`: ordered reactions and ordered metabolites. -/
structure CobraModel where
  reactions : List Reaction
  metabolites : List Metabolite
deriving DecidableEq, Repr, Inhabited

/-- A gurobi variable: bounds, objective coefficient, kind, name, and the
primal value `X` available after a solve. -/
structure GurobiVar where
  lb : ℚ
  ub : ℚ
  obj : ℚ
  vtype : Char
  name : String
  X : ℚ := 0
deriving DecidableEq, Repr, Inhabited

/-- A gurobi linear constraint: linear terms as `(coefficient, variable
index)` pairs, sense, right-hand side, name, and the dual value `Pi`
available after a solve of a continuous problem. -/
structure GurobiConstr where
  lin : List (ℚ × Nat)
  sense : Char
  rhs : ℚ
  name : String
  Pi : ℚ := 0
deriving DecidableEq, Repr, Inhabited

/-- A gurobi `QuadExpr`: quadratic terms as `(coefficient, i, j)` triples
over variable indices, plus its linear part (`getLinExpr`). -/
structure QuadExpr where
  quadTerms : List (ℚ × Nat × Nat)
  linPart : List (ℚ × Nat)
deriving DecidableEq, Repr, Inhabited

/-- The gurobi model state visible to this module: the parameter store
(most recent write first), the `ModelSense` attribute, variables,
constraints, the explicitly set quadratic objective (if any), the status
code and the objective value of the last solve. -/
structure LP where
  params : List (String × PValue)
  modelSense : Option Int
  vars : List GurobiVar
  constrs : List GurobiConstr
  quadObjective : Option QuadExpr
  status : Int
  objVal : ℚ
deriving DecidableEq, Repr, Inhabited

/-- A fresh `Model("")`. -/
def LP.empty : LP :=
  { params := [], modelSense := none, vars := [], constrs := [],
    quadObjective := none, status := GRB.LOADED, objVal := 0 }

/-- The gurobi `Model.isMIP` attribute: true iff the model carries a
discrete element, which for problems built by this module means an
integer-kind variable. -/
def LP.isMIP (lp : LP) : Bool :=
  lp.vars.any (fun v => v.vtype = GRB.INTEGER)

/-- Integer-keyed first-match lookup (for `status_dict`). -/
def ilookup {β : Type} (k : Int) : List (Int × β) → Option β
  | [] => none
  | p :: rest => if p.1 = k then some p.2 else ilookup k rest

/-- Source `get_status`: classify the backend status code through
`status_dict`; unknown codes map to `"failed"`. -/
def get_status (lp : LP) : String :=
  match ilookup lp.status status_dict with
  | some s => s
  | none => "failed"

/-- Modelled from the spec: the canonical `Solution` record
(`cobra/core/Solution.py`, which is not under `src/`): status, optional
objective value, optional primal values (ordered and keyed by reaction id)
and optional dual values (ordered and keyed by metabolite id). The Python
constructor `Solution(f, x=None, x_dict=None, y=None, y_dict=None,
status=None)` stores each argument; omitted fields default to `None`. -/
structure Solution where
  objective_value : Option ℚ
  x : Option (List ℚ)
  x_dict : Option (List (String × ℚ))
  y : Option (List ℚ)
  y_dict : Option (List (String × ℚ))
  status : String
deriving DecidableEq, Repr, Inhabited

/-- Source `format_solution`: status-only `Solution` unless the status is
`optimal` or `time_limit`; otherwise objective value, primal values zipped
against the model's reactions, and dual values (zipped against the model's
metabolites) only for a non-MIP problem. -/
def format_solution (lp : LP) (cobra_model : CobraModel) : Solution :=
  let status := get_status lp
  if ¬ (status ∈ ["optimal", "time_limit"]) then
    { objective_value := none, x := none, x_dict := none, y := none,
      y_dict := none, status := status }
  else
    let objective_value := lp.objVal
    let x := lp.vars.map (fun v => v.X)
    let x_dict := (cobra_model.reactions.zip x).map (fun rv => (rv.1.id, rv.2))
    if lp.isMIP then
      { objective_value := some objective_value, x := some x,
        x_dict := some x_dict, y := none, y_dict := none, status := status }
    else
      let y := lp.constrs.map (fun c => c.Pi)
      let y_dict := (cobra_model.metabolites.zip y).map (fun mv => (mv.1.id, mv.2))
      { objective_value := some objective_value, x := some x,
        x_dict := some x_dict, y := some y, y_dict := some y_dict,
        status := status }

/-- Source `set_parameter`: the objective-sense parameter is translated
through `objective_senses` and set as the `ModelSense` model attribute
(a missing sense key raises `KeyError`; `setAttr` on the unknown attribute
name `objective_sense` raises); any other name is re-resolved through
`parameter_mappings` (identity if unmapped) and written to the backend
parameter store. -/
def set_parameter (lp : LP) (parameter_name : String) (parameter_value : PValue) :
    Except String LP :=
  if parameter_name = "ModelSense" ∨ parameter_name = "objective_sense" then
    match parameter_value with
    | .str s =>
      match alookup s objective_senses with
      | some sense =>
        if parameter_name = "ModelSense" then
          .ok { lp with modelSense := some sense }
        else
          .error "AttributeError: objective_sense"
      | none => .error "KeyError: objective_senses"
    | _ => .error "KeyError: objective_senses"
  else
    .ok { lp with params :=
      ((match alookup parameter_name parameter_mappings with
        | some n => n
        | none => parameter_name), parameter_value) :: lp.params }

/-- Source list comprehension
`[set_parameter(lp, parameter_mappings[k], v) for k, v in d.iteritems() if k in parameter_mappings]`
used by both `create_problem` and `solve_problem`. -/
def applyMappedParameters : LP → Dict → Except String LP
  | lp, [] => .ok lp
  | lp, kv :: rest =>
    match alookup kv.1 parameter_mappings with
    | some backend =>
      match set_parameter lp backend kv.2 with
      | .error e => .error e
      | .ok lp1 => applyMappedParameters lp1 rest
    | none => applyMappedParameters lp rest

/-- Source variable-construction comprehension in `create_problem`:
`lp.addVar(float(x.lower_bound), float(x.upper_bound),
float(x.objective_coefficient), variable_kind_dict[x.variable_kind], str(i))
for i, x in enumerate(cobra_model.reactions)`; `start` is the enumeration
index of the first reaction in the argument list. A variable kind missing
from `variable_kind_dict` raises `KeyError`. -/
def buildVariableList : List Reaction → Nat → Except String (List GurobiVar)
  | [], _ => .ok []
  | x :: rest, start =>
    match alookup x.variable_kind variable_kind_dict with
    | none => .error "KeyError: variable_kind_dict"
    | some kind =>
      match buildVariableList rest (start + 1) with
      | .error e => .error e
      | .ok vs =>
        .ok ({ lb := x.lower_bound, ub := x.upper_bound,
               obj := x.objective_coefficient, vtype := kind,
               name := toString start, X := 0 } :: vs)

/-- Source inner loop of constraint construction: for each reaction in
`the_metabolite._reaction`, the stoichiometric coefficient
`the_reaction._metabolites[the_metabolite]` paired with the reaction's
variable (`reaction_to_variable[the_reaction]`, here the reaction index).
A reaction outside the model or a missing stoichiometry entry raises
`KeyError`. -/
def buildConstraintTerms (reactions : List Reaction) (met_index : Nat) :
    List Nat → Except String (List (ℚ × Nat))
  | [] => .ok []
  | ri :: rest =>
    match reactions.get? ri with
    | none => .error "KeyError: reaction_to_variable"
    | some r =>
      match r._metabolites.lookup met_index with
      | none => .error "KeyError: _metabolites"
      | some c =>
        match buildConstraintTerms reactions met_index rest with
        | .error e => .error e
        | .ok ts => .ok ((c, ri) :: ts)

/-- Source constraint-construction loop of `create_problem`: one
`lp.addConstr(LinExpr(...), sense_dict[sense.upper()], the_metabolite._bound, str(i))`
per metabolite, in model order; `start` is the enumeration index of the
first metabolite in the argument list. -/
def buildConstraintList (reactions : List Reaction) :
    List Metabolite → Nat → Except String (List GurobiConstr)
  | [], _ => .ok []
  | the_metabolite :: rest, start =>
    match buildConstraintTerms reactions start the_metabolite._reaction with
    | .error e => .error e
    | .ok terms =>
      match alookup (pyUpper the_metabolite._constraint_sense) sense_dict with
      | none => .error "KeyError: sense_dict"
      | some s =>
        match buildConstraintList reactions rest (start + 1) with
        | .error e => .error e
        | .ok cs =>
          .ok ({ lin := terms, sense := s, rhs := the_metabolite._bound,
                 name := toString start, Pi := 0 } :: cs)

/-- Source loop in `set_quadratic_objective`:
`gur_quadratic_objective.addTerms(the_value * 0.5, variable_list[index_0], variable_list[index_1])`
over the `todok().items()` entries; an index beyond `variable_list` raises
`IndexError`. -/
def addScaledQuadTerms (variable_count : Nat) :
    List ((Nat × Nat) × ℚ) → Except String (List (ℚ × Nat × Nat))
  | [] => .ok []
  | e :: rest =>
    if e.1.1 < variable_count ∧ e.1.2 < variable_count then
      match addScaledQuadTerms variable_count rest with
      | .error err => .error err
      | .ok ts => .ok ((e.2 * (1 / 2 : ℚ), e.1.1, e.1.2) :: ts)
    else
      .error "IndexError: variable_list"

/-- Source `set_quadratic_objective`. `lp.getObjective()` yields the set
quadratic objective if one exists and the linear objective built from the
variables' `obj` coefficients otherwise; the duck-typed
`hasattr(_, "getLinExpr")` check extracts the linear component in the
quadratic case. A fresh `QuadExpr` is filled with the supplied entries
scaled by `0.5` and `lp.setObjective(gur_quadratic_objective + linear_objective)`
replaces the objective with that sum. (The `todok` capability check of the
Python code is inherent here: the argument is already the sparse entry
list.) -/
def set_quadratic_objective (lp : LP) (quadratic_objective : List ((Nat × Nat) × ℚ)) :
    Except String LP :=
  let variable_list := lp.vars
  let linear_objective : List (ℚ × Nat) :=
    match lp.quadObjective with
    | some q => q.linPart
    | none => lp.vars.enum.map (fun iv => (iv.2.obj, iv.1))
  match addScaledQuadTerms variable_list.length quadratic_objective with
  | .error e => .error e
  | .ok quadTerms =>
    .ok { lp with quadObjective := some { quadTerms := quadTerms, linPart := linear_objective } }

/-- Source `create_problem`: fresh silent model, defaults merged with the
caller's kwargs, every mapped parameter applied, variables from the
reactions, constraints from the metabolites, and optionally the quadratic
objective. -/
def create_problem (cobra_model : CobraModel)
    (quadratic_component : Option (List ((Nat × Nat) × ℚ))) (kwargs : Dict) :
    Except String LP :=
  match set_parameter LP.empty "OutputFlag" (.int 0) with
  | .error e => .error e
  | .ok lp0 =>
    let the_parameters := dictUpdate parameter_defaults kwargs
    match applyMappedParameters lp0 the_parameters with
    | .error e => .error e
    | .ok lp1 =>
      match buildVariableList cobra_model.reactions 0 with
      | .error e => .error e
      | .ok variable_list =>
        let lp2 := { lp1 with vars := variable_list }
        match buildConstraintList cobra_model.reactions cobra_model.metabolites 0 with
        | .error e => .error e
        | .ok constraint_list =>
          let lp3 := { lp2 with constrs := constraint_list }
          match quadratic_component with
          | some q => set_quadratic_objective lp3 q
          | none => .ok lp3

/-- The call `create_problem(cobra_model, **d)`: a `quadratic_component`
entry of `d` binds the named parameter (everything else lands in
`**kwargs`). -/
def create_problem_kw (cobra_model : CobraModel) (d : Dict) : Except String LP :=
  let quadratic_component :=
    match alookup "quadratic_component" d with
    | some (.qc m) => some m
    | _ => none
  create_problem cobra_model quadratic_component (dictErase d "quadratic_component")

/-- Gurobi `Model.reset()`: discard solution state. -/
def resetLP (lp : LP) : LP :=
  { lp with
    status := GRB.LOADED, objVal := 0,
    vars := lp.vars.map (fun v => { v with X := 0 }),
    constrs := lp.constrs.map (fun c => { c with Pi := 0 }) }

/-- Source update loop of `update_problem`:
`for the_variable, the_reaction in zip(lp.getVars(), cobra_model.reactions)`
rewrite `lb`, `ub` and `obj` positionally; `zip` truncates at the shorter
list, leaving any surplus variables untouched. -/
def updateVarsFromReactions : List GurobiVar → List Reaction → List GurobiVar
  | vs, [] => vs
  | [], _ => []
  | v :: vs, r :: rs =>
    { v with
      lb := r.lower_bound, ub := r.upper_bound,
      obj := r.objective_coefficient } :: updateVarsFromReactions vs rs

/-- The final state of the local variable `lp` inside `update_problem`'s
body: the optional `reset` (when `reuse_basis` is supplied falsy) followed
by the positional bound/objective rewrites. -/
def update_problem_body (lp : LP) (cobra_model : CobraModel) (kwargs : Dict) : LP :=
  let lp1 :=
    if (match alookup "reuse_basis" kwargs with
        | some v => !v.isTruthy
        | none => false) then resetLP lp else lp
  { lp1 with vars := updateVarsFromReactions lp1.vars cobra_model.reactions }

/-- Source `update_problem`. The result models the call as seen by the
caller: the emitted warnings, the Python return value (the function has no
`return` statement, hence always `None`), and the state of the caller's
problem object after the call — when `copy_problem` is truthy the body
rebinds its local `lp` to `lp.copy()` and mutates only that copy, so the
caller's object is unchanged. -/
def update_problem (lp : LP) (cobra_model : CobraModel) (kwargs : Dict) :
    List String × Option LP × LP :=
  let warnings :=
    match alookup "quadratic_component" kwargs with
    | some v =>
      if v = .pynone then []
      else ["update_problem does not yet take quadratic_component as a parameter"]
    | none => []
  let copied :=
    match alookup "copy_problem" kwargs with
    | some v => v.isTruthy
    | none => false
  (warnings, none, if copied then lp else update_problem_body lp cobra_model kwargs)

/-- Source `solve_problem`: apply the mapped parameters from `kwargs`,
then `lp.update(); lp.optimize()` (the opaque backend call, abstracted as
the oracle `opt`; an `Except.error` is the backend raising, carrying the
backend state at the raise), and classify the resulting status. -/
def solve_problem (opt : LP → Except LP LP) (lp : LP) (kwargs : Dict) :
    Except LP (LP × String) :=
  match (if kwargs.isEmpty then .ok lp else
          match applyMappedParameters lp kwargs with
          | .error _ => .error lp
          | .ok lp1 => .ok lp1 : Except LP LP) with
  | .error lpE => .error lpE
  | .ok lp1 =>
    match opt lp1 with
    | .error lpE => .error lpE
    | .ok lp2 => .ok (lp2, get_status lp2)

/-- Source attempt-list construction in `solve`:
`the_methods = [0, 2, 1]; if lp_method in the_methods: the_methods.remove(lp_method); the_methods.insert(0, lp_method)`. -/
def the_methods_for (lp_method : PValue) : List PValue :=
  let the_methods : List PValue := [.int 0, .int 2, .int 1]
  let the_methods :=
    if lp_method ∈ the_methods then the_methods.erase lp_method else the_methods
  lp_method :: the_methods

/-- One iteration body of `solve`'s retry loop: set
`the_parameters['lp_method'] = the_method`, call `solve_problem` inside
`try`, and convert any raised exception to status `"failed"`. -/
def solveAttempt (opt : LP → Except LP LP) (the_parameters : Dict)
    (m : PValue) (lp : LP) : LP × String :=
  match solve_problem opt lp (dictInsert the_parameters "lp_method" m) with
  | .error lpE => (lpE, "failed")
  | .ok r => r

/-- Source retry loop of `solve`: attempt each method in order, stopping
at the first `"optimal"` status; the result is the problem state and the
status after the loop exits. -/
def runSolveLoop (att : PValue → LP → LP × String) :
    List PValue → LP → String → LP × String
  | [], lp, status => (lp, status)
  | m :: rest, lp, _ =>
    let r := att m lp
    if r.2 = "optimal" then r else runSolveLoop att rest r.1 r.2

/-- The chained sequence of `(state, status)` results the attempt body
produces along a method list when no early exit happens (each attempt
starts from the state the previous one left behind). -/
def attemptTrace (att : PValue → LP → LP × String) :
    List PValue → LP → List (LP × String)
  | [], _ => []
  | m :: rest, lp =>
    let r := att m lp
    r :: attemptTrace att rest r.1

/-- Source removed-option list checked by `solve`. -/
def removed_options : List String :=
  ["new_objective", "update_problem", "the_problem"]

/-- Build-time exceptions `solve` can raise: `Exception("Option %s removed")`
for a removed legacy option (the spec's ConfigurationError), or an
exception propagating out of `create_problem`. -/
inductive SolveError where
  | optionRemoved (name : String)
  | buildFailure (msg : String)
deriving DecidableEq, Repr

/-- Source `solve`: merge defaults with the caller's kwargs, reject removed
options, warn about `error_reporting`, build the problem, then drive the
retry loop over `the_methods` and return `format_solution` of the final
state. The first component collects emitted warnings; the second is the
returned `Solution` or the raised build-time exception. -/
def solve (opt : LP → Except LP LP) (cobra_model : CobraModel) (kwargs : Dict) :
    List String × Except SolveError Solution :=
  let the_parameters := dictUpdate parameter_defaults kwargs
  match removed_options.find? (fun i => (alookup i the_parameters).isSome) with
  | some i => ([], .error (.optionRemoved i))
  | none =>
    let warnings :=
      if (alookup "error_reporting" the_parameters).isSome then
        ["error_reporting deprecated"]
      else []
    match create_problem_kw cobra_model the_parameters with
    | .error e => (warnings, .error (.buildFailure e))
    | .ok lp =>
      let lp_method :=
        match alookup "lp_method" the_parameters with
        | some v => v
        | none => .int 0
      let r := runSolveLoop (solveAttempt opt the_parameters)
        (the_methods_for lp_method) lp ""
      (warnings, .ok (format_solution r.1 cobra_model))

/-! ### Specification-side helper functions -/

/-- Value of a `QuadExpr`'s quadratic part at a primal point `x`
(out-of-range indices read as `0`; never exercised for terms built by
`set_quadratic_objective`, which bounds-checks them). -/
def QuadExpr.evalQuad (q : QuadExpr) (x : List ℚ) : ℚ :=
  (q.quadTerms.map (fun t => t.1 * x.getD t.2.1 0 * x.getD t.2.2 0)).sum

/-- The quadratic form `xᵀQx` of a sparse component at a point `x`. -/
def quadFormValue (Q : List ((Nat × Nat) × ℚ)) (x : List ℚ) : ℚ :=
  (Q.map (fun e => e.2 * x.getD e.1.1 0 * x.getD e.1.2 0)).sum

/-- The sequence of writes `applyMappedParameters` performs on the backend
parameter store for a given dict: mapped, non-objective-sense entries,
keyed by the backend name after `set_parameter`'s second (identity)
resolution. -/
def paramWrites (d : Dict) : List (String × PValue) :=
  d.filterMap (fun kv =>
    match alookup kv.1 parameter_mappings with
    | some backend =>
      if backend = "ModelSense" ∨ backend = "objective_sense" then none
      else some ((match alookup backend parameter_mappings with
                  | some n => n
                  | none => backend), kv.2)
    | none => none)

/-- Whether an `Except` result is a success (models "returns without
raising"). -/
def isOkE {ε α : Type} : Except ε α → Bool
  | .ok _ => true
  | .error _ => false

/-- The model state right after `create_problem`'s initial
`set_parameter(lp, 'OutputFlag', 0)` on a fresh `Model("")`. -/
def lpInit : LP :=
  { LP.empty with params := [("OutputFlag", PValue.int 0)] }

/-! ### Concrete states used by the witnesses -/

/-- A small concrete model used by the witnesses: two continuous reactions
and one balanced metabolite. -/
def exampleReactionA : Reaction :=
  { id := "R1", lower_bound := 0, upper_bound := 10, objective_coefficient := 1,
    variable_kind := "continuous", _metabolites := [(0, 1)] }

def exampleReactionB : Reaction :=
  { id := "R2", lower_bound := 0, upper_bound := 5, objective_coefficient := 0,
    variable_kind := "continuous", _metabolites := [(0, -1)] }

def exampleMetabolite : Metabolite :=
  { id := "M1", _constraint_sense := "E", _bound := 0, _reaction := [0, 1] }

def exampleModel : CobraModel :=
  { reactions := [exampleReactionA, exampleReactionB],
    metabolites := [exampleMetabolite] }

/-- The problem `create_problem` builds from `exampleModel` with default
parameters. -/
def exampleLP : LP := (create_problem exampleModel none []).toOption.getD default

/-- The problem built from `exampleModel` with an explicit
`tolerance_optimality` override. -/
def exampleLPTol : LP :=
  (create_problem exampleModel none
    [("tolerance_optimality", PValue.num (1 / 2))]).toOption.getD default

/-- An infeasible backend state. -/
def lpInfeasible : LP := { LP.empty with status := GRB.INFEASIBLE }

/-- A solved backend state with one integer variable. -/
def lpMIPOptimal : LP :=
  { LP.empty with
    status := GRB.OPTIMAL,
    vars := [{ lb := 0, ub := 1, obj := 1, vtype := GRB.INTEGER, name := "0", X := 1 }] }

/-- A problem whose objective already carries a quadratic part
(`x₀²` with an empty linear component), used to exhibit the behaviour of
`set_quadratic_objective` on a pre-existing quadratic objective. -/
def lpPriorQuad : LP :=
  { params := [], modelSense := none,
    vars := [{ lb := 0, ub := 1, obj := 0, vtype := GRB.CONTINUOUS, name := "0", X := 0 },
             { lb := 0, ub := 1, obj := 0, vtype := GRB.CONTINUOUS, name := "1", X := 0 }],
    constrs := [],
    quadObjective := some { quadTerms := [((1 : ℚ), 0, 0)], linPart := [] },
    status := GRB.LOADED, objVal := 0 }

/-! ### Association-list helper lemmas -/

theorem alookup_append {β : Type} (l1 l2 : List (String × β)) (k : String) :
    alookup k (l1 ++ l2) =
      match alookup k l1 with
      | some v => some v
      | none => alookup k l2 := by
  induction l1 with
  | nil => simp [alookup]
  | cons p rest ih =>
    by_cases h : p.1 = k <;> simp [alookup, h, ih]

theorem alookup_none_of_not_mem_keys {β : Type} (k : String) (l : List (String × β))
    (h : k ∉ keysOf l) : alookup k l = none := by
  induction l with
  | nil => rfl
  | cons p rest ih =>
    simp only [keysOf, List.map_cons, List.mem_cons, not_or] at h
    simp only [alookup, if_neg (fun hp : p.1 = k => h.1 hp.symm)]
    exact ih h.2

theorem mem_of_alookup_eq_some {β : Type} (k : String) (v : β) (l : List (String × β))
    (h : alookup k l = some v) : (k, v) ∈ l := by
  induction l with
  | nil => simp [alookup] at h
  | cons p rest ih =>
    obtain ⟨a, b⟩ := p
    by_cases hp : a = k
    · subst hp
      simp only [alookup, if_pos rfl] at h
      injection h with h
      subst h
      exact List.mem_cons_self _ _
    · simp only [alookup, if_neg hp] at h
      exact List.mem_cons_of_mem _ (ih h)

theorem keysOf_filter_ne (d : Dict) (k : String) :
    keysOf (d.filter (fun kv => kv.1 ≠ k)) = (keysOf d).filter (fun s => s ≠ k) := by
  induction d with
  | nil => simp [keysOf]
  | cons p rest ih =>
    by_cases h : p.1 = k <;> simp [keysOf, List.filter_cons, h, ih] at * <;> simp [ih]

theorem nodup_keys_dictInsert (d : Dict) (k : String) (v : PValue)
    (h : (keysOf d).Nodup) : (keysOf (dictInsert d k v)).Nodup := by
  unfold dictInsert
  simp only [keysOf, List.map_cons, List.nodup_cons]
  constructor
  · intro hk
    rw [show (d.filter (fun kv => kv.1 ≠ k)).map Prod.fst =
          keysOf (d.filter (fun kv => kv.1 ≠ k)) from rfl, keysOf_filter_ne] at hk
    have := List.of_mem_filter hk
    simp at this
  · rw [show (d.filter (fun kv => kv.1 ≠ k)).map Prod.fst =
          keysOf (d.filter (fun kv => kv.1 ≠ k)) from rfl, keysOf_filter_ne]
    exact h.filter _

theorem nodup_keys_dictUpdate (kw : Dict) :
    ∀ base : Dict, (keysOf base).Nodup → (keysOf (dictUpdate base kw)).Nodup := by
  induction kw with
  | nil => intro base h; exact h
  | cons p rest ih =>
    intro base h
    exact ih (dictInsert base p.1 p.2) (nodup_keys_dictInsert base p.1 p.2 h)

theorem parameter_defaults_keys_nodup : (keysOf parameter_defaults).Nodup := by
  decide

/-! ### Structural lemmas about the solver operations -/

theorem set_parameter_ok_params (lp lp' : LP) (name : String) (v : PValue)
    (hn : ¬ (name = "ModelSense" ∨ name = "objective_sense"))
    (h : set_parameter lp name v = .ok lp') :
    lp'.params = ((match alookup name parameter_mappings with
                   | some n => n
                   | none => name), v) :: lp.params := by
  unfold set_parameter at h
  rw [if_neg hn] at h
  injection h with h
  subst h
  rfl

theorem set_parameter_sense_ok_params (lp lp' : LP) (v : PValue)
    (h : set_parameter lp "ModelSense" v = .ok lp') : lp'.params = lp.params := by
  unfold set_parameter at h
  simp only [if_pos (Or.inl rfl)] at h
  cases v <;> simp_all
  rename_i s
  cases halk : alookup s objective_senses <;> rw [halk] at h <;> simp_all
  subst h
  rfl

theorem paramWrites_cons_skip (kv : String × PValue) (rest : Dict)
    (h : alookup kv.1 parameter_mappings = none) :
    paramWrites (kv :: rest) = paramWrites rest := by
  simp [paramWrites, List.filterMap_cons, h]

theorem paramWrites_cons_sense (kv : String × PValue) (rest : Dict) (backend : String)
    (hm : alookup kv.1 parameter_mappings = some backend)
    (hsen : backend = "ModelSense" ∨ backend = "objective_sense") :
    paramWrites (kv :: rest) = paramWrites rest := by
  simp [paramWrites, List.filterMap_cons, hm, if_pos hsen]

theorem paramWrites_cons_write (kv : String × PValue) (rest : Dict) (backend : String)
    (hm : alookup kv.1 parameter_mappings = some backend)
    (hsen : ¬ (backend = "ModelSense" ∨ backend = "objective_sense")) :
    paramWrites (kv :: rest) =
      ((match alookup backend parameter_mappings with
        | some n => n
        | none => backend), kv.2) :: paramWrites rest := by
  simp [paramWrites, List.filterMap_cons, hm, if_neg hsen]

theorem set_parameter_objsense_not_ok (lp lp1 : LP) (v : PValue)
    (h : set_parameter lp "objective_sense" v = .ok lp1) : False := by
  unfold set_parameter at h
  simp only [if_pos (Or.inr rfl)] at h
  cases v with
  | str s =>
    cases halk : alookup s objective_senses <;> simp only [halk] at h <;>
      exact absurd h (by simp)
  | pynone => exact absurd h (by simp)
  | bool b => exact absurd h (by simp)
  | int n => exact absurd h (by simp)
  | num q => exact absurd h (by simp)
  | qc mq => exact absurd h (by simp)

theorem applyMappedParameters_ok_params (d : Dict) :
    ∀ lp lp' : LP, applyMappedParameters lp d = .ok lp' →
      lp'.params = (paramWrites d).reverse ++ lp.params := by
  induction d with
  | nil =>
    intro lp lp' h
    injection h with h
    subst h
    simp [paramWrites]
  | cons kv rest ih =>
    intro lp lp' h
    cases hm : alookup kv.1 parameter_mappings with
    | none =>
      simp only [applyMappedParameters, hm] at h
      rw [paramWrites_cons_skip kv rest hm]
      exact ih lp lp' h
    | some backend =>
      simp only [applyMappedParameters, hm] at h
      cases hs : set_parameter lp backend kv.2 with
      | error e => simp only [hs] at h; exact absurd h (by simp)
      | ok lp1 =>
        simp only [hs] at h
        have hrest := ih lp1 lp' h
        by_cases hsen : backend = "ModelSense" ∨ backend = "objective_sense"
        · have hps : lp1.params = lp.params := by
            rcases hsen with hsen | hsen
            · exact set_parameter_sense_ok_params lp lp1 kv.2 (hsen ▸ hs)
            · exact absurd (hsen ▸ hs) (fun hc =>
                set_parameter_objsense_not_ok lp lp1 kv.2 hc)
          rw [paramWrites_cons_sense kv rest backend hm hsen, hrest, hps]
        · have hps := set_parameter_ok_params lp lp1 backend kv.2 hsen hs
          rw [paramWrites_cons_write kv rest backend hm hsen, hrest, hps]
          simp [List.reverse_cons, List.append_assoc]

theorem addScaledQuadTerms_ok (n : Nat) (Q : List ((Nat × Nat) × ℚ)) :
    ∀ ts, addScaledQuadTerms n Q = .ok ts →
      ts = Q.map (fun e => (e.2 * (1 / 2 : ℚ), e.1.1, e.1.2)) := by
  induction Q with
  | nil =>
    intro ts h
    injection h with h
    subst h
    rfl
  | cons e rest ih =>
    intro ts h
    unfold addScaledQuadTerms at h
    by_cases hb : e.1.1 < n ∧ e.1.2 < n
    · rw [if_pos hb] at h
      cases hr : addScaledQuadTerms n rest with
      | error err => rw [hr] at h; exact absurd h (by simp)
      | ok ts' =>
        rw [hr] at h
        injection h with h
        subst h
        rw [List.map_cons, ih ts' hr]
    · rw [if_neg hb] at h
      exact absurd h (by simp)

theorem set_quadratic_objective_ok_frame (lp lp' : LP) (Q : List ((Nat × Nat) × ℚ))
    (h : set_quadratic_objective lp Q = .ok lp') :
    lp'.params = lp.params ∧ lp'.vars = lp.vars ∧ lp'.constrs = lp.constrs := by
  cases hq : addScaledQuadTerms lp.vars.length Q with
  | error e =>
    simp only [set_quadratic_objective, hq] at h
    exact absurd h (by simp)
  | ok ts =>
    simp only [set_quadratic_objective, hq] at h
    injection h with h
    subst h
    exact ⟨rfl, rfl, rfl⟩

theorem buildVariableList_ok (rs : List Reaction) :
    ∀ (start : Nat) (vs : List GurobiVar), buildVariableList rs start = .ok vs →
      vs.length = rs.length ∧
      ∀ i (hi : i < rs.length) (hv : i < vs.length),
        (vs.get ⟨i, hv⟩).lb = (rs.get ⟨i, hi⟩).lower_bound ∧
        (vs.get ⟨i, hv⟩).ub = (rs.get ⟨i, hi⟩).upper_bound ∧
        (vs.get ⟨i, hv⟩).obj = (rs.get ⟨i, hi⟩).objective_coefficient ∧
        alookup (rs.get ⟨i, hi⟩).variable_kind variable_kind_dict = some (vs.get ⟨i, hv⟩).vtype ∧
        (vs.get ⟨i, hv⟩).name = toString (start + i) := by
  induction rs with
  | nil =>
    intro start vs h
    injection h with h
    subst h
    exact ⟨rfl, fun i hi => absurd hi (by simp)⟩
  | cons x rest ih =>
    intro start vs h
    unfold buildVariableList at h
    cases hk : alookup x.variable_kind variable_kind_dict with
    | none => rw [hk] at h; exact absurd h (by simp)
    | some kind =>
      rw [hk] at h
      cases hr : buildVariableList rest (start + 1) with
      | error e => rw [hr] at h; exact absurd h (by simp)
      | ok vs' =>
        rw [hr] at h
        injection h with h
        subst h
        obtain ⟨hlen, hget⟩ := ih (start + 1) vs' hr
        refine ⟨by simp [hlen], ?_⟩
        intro i hi hv
        match i with
        | 0 => exact ⟨rfl, rfl, rfl, by simpa using hk, by simp⟩
        | j + 1 =>
          have hj : j < rest.length := by simpa using hi
          have hjv : j < vs'.length := by simpa using hv
          have := hget j hj hjv
          simpa [Nat.add_assoc, Nat.add_comm 1 j] using this

theorem updateVarsFromReactions_length (vs : List GurobiVar) :
    ∀ rs : List Reaction, (updateVarsFromReactions vs rs).length = vs.length := by
  induction vs with
  | nil => intro rs; cases rs <;> rfl
  | cons v vtl ih =>
    intro rs
    cases rs with
    | nil => rfl
    | cons r rtl => simp [updateVarsFromReactions, ih]

theorem updateVarsFromReactions_get (vs : List GurobiVar) :
    ∀ (rs : List Reaction) (i : Nat) (hv : i < (updateVarsFromReactions vs rs).length)
      (hr : i < rs.length),
      ((updateVarsFromReactions vs rs).get ⟨i, hv⟩).lb = (rs.get ⟨i, hr⟩).lower_bound ∧
      ((updateVarsFromReactions vs rs).get ⟨i, hv⟩).ub = (rs.get ⟨i, hr⟩).upper_bound ∧
      ((updateVarsFromReactions vs rs).get ⟨i, hv⟩).obj = (rs.get ⟨i, hr⟩).objective_coefficient := by
  induction vs with
  | nil =>
    intro rs i hv hr
    cases rs <;> simp [updateVarsFromReactions] at hv
  | cons v vtl ih =>
    intro rs i hv hr
    cases rs with
    | nil => simp at hr
    | cons r rtl =>
      match i with
      | 0 => exact ⟨rfl, rfl, rfl⟩
      | j + 1 =>
        have hv' : j < (updateVarsFromReactions vtl rtl).length := by
          simpa [updateVarsFromReactions] using hv
        have hr' : j < rtl.length := by simpa using hr
        simpa [updateVarsFromReactions] using ih rtl j hv' hr'

theorem set_OutputFlag_eq : set_parameter LP.empty "OutputFlag" (.int 0) = .ok lpInit := rfl

theorem create_problem_ok_anatomy (model : CobraModel)
    (qc : Option (List ((Nat × Nat) × ℚ))) (kwargs : Dict) (lp : LP)
    (h : create_problem model qc kwargs = .ok lp) :
    buildVariableList model.reactions 0 = .ok lp.vars ∧
    lp.params = (paramWrites (dictUpdate parameter_defaults kwargs)).reverse ++
      [("OutputFlag", PValue.int 0)] := by
  simp only [create_problem, set_OutputFlag_eq] at h
  cases hap : applyMappedParameters lpInit (dictUpdate parameter_defaults kwargs) with
  | error e => simp only [hap] at h; exact absurd h (by simp)
  | ok lp1 =>
    simp only [hap] at h
    have hparams1 : lp1.params = (paramWrites (dictUpdate parameter_defaults kwargs)).reverse ++
        [("OutputFlag", PValue.int 0)] :=
      applyMappedParameters_ok_params _ lpInit lp1 hap
    cases hbv : buildVariableList model.reactions 0 with
    | error e => simp only [hbv] at h; exact absurd h (by simp)
    | ok vl =>
      simp only [hbv] at h
      cases hbc : buildConstraintList model.reactions model.metabolites 0 with
      | error e => simp only [hbc] at h; exact absurd h (by simp)
      | ok cl =>
        simp only [hbc] at h
        cases qc with
        | none =>
          simp only at h
          injection h with h
          subst h
          exact ⟨rfl, hparams1⟩
        | some q =>
          simp only at h
          obtain ⟨hp, hv, _⟩ := set_quadratic_objective_ok_frame _ lp q h
          refine ⟨?_, ?_⟩
          · rw [hv]
          · rw [hp]; exact hparams1

/-- C8: for every model with N reactions, `create_problem` creates exactly
N variables, and the i-th variable's lower bound, upper bound, objective
coefficient and (through `variable_kind_dict`) variable kind equal the
i-th reaction's fields, with the variable's name being the stringified
zero-based index i. -/
theorem create_problem_variables (model : CobraModel)
    (qc : Option (List ((Nat × Nat) × ℚ))) (kwargs : Dict) (lp : LP)
    (h : create_problem model qc kwargs = .ok lp) :
    lp.vars.length = model.reactions.length ∧
    ∀ i (hi : i < model.reactions.length) (hv : i < lp.vars.length),
      (lp.vars.get ⟨i, hv⟩).lb = (model.reactions.get ⟨i, hi⟩).lower_bound ∧
      (lp.vars.get ⟨i, hv⟩).ub = (model.reactions.get ⟨i, hi⟩).upper_bound ∧
      (lp.vars.get ⟨i, hv⟩).obj = (model.reactions.get ⟨i, hi⟩).objective_coefficient ∧
      alookup (model.reactions.get ⟨i, hi⟩).variable_kind variable_kind_dict =
        some (lp.vars.get ⟨i, hv⟩).vtype ∧
      (lp.vars.get ⟨i, hv⟩).name = toString i := by
  obtain ⟨hbv, _⟩ := create_problem_ok_anatomy model qc kwargs lp h
  obtain ⟨hlen, hget⟩ := buildVariableList_ok model.reactions 0 lp.vars hbv
  refine ⟨hlen, ?_⟩
  intro i hi hv
  have := hget i hi hv
  simpa [Nat.zero_add] using this

theorem create_problem_variables_witness :
    exampleLP.vars.length = exampleModel.reactions.length ∧
    (exampleLP.vars.get ⟨0, by decide⟩).name = toString 0 := by
  have h := create_problem_variables exampleModel none [] exampleLP rfl
  exact ⟨h.1, (h.2 0 (by decide) (by decide)).2.2.2.2⟩

/-- Closed form of `format_solution` with the lets inlined. -/
theorem format_solution_eq (lp : LP) (m : CobraModel) :
    format_solution lp m =
      if ¬ (get_status lp ∈ ["optimal", "time_limit"]) then
        { objective_value := none, x := none, x_dict := none, y := none,
          y_dict := none, status := get_status lp }
      else if lp.isMIP then
        { objective_value := some lp.objVal,
          x := some (lp.vars.map (fun v => v.X)),
          x_dict := some ((m.reactions.zip (lp.vars.map (fun v => v.X))).map
            (fun rv => (rv.1.id, rv.2))),
          y := none, y_dict := none, status := get_status lp }
      else
        { objective_value := some lp.objVal,
          x := some (lp.vars.map (fun v => v.X)),
          x_dict := some ((m.reactions.zip (lp.vars.map (fun v => v.X))).map
            (fun rv => (rv.1.id, rv.2))),
          y := some (lp.constrs.map (fun c => c.Pi)),
          y_dict := some ((m.metabolites.zip (lp.constrs.map (fun c => c.Pi))).map
            (fun mv => (mv.1.id, mv.2))),
          status := get_status lp } := rfl

/-- C3: for every problem whose classified status is not in
{optimal, time_limit} — i.e. infeasible, unbounded or failed —
`format_solution` returns a Solution carrying only the status: no
objective value, no primal values or mapping, no dual values or mapping. -/
theorem format_solution_status_only (lp : LP) (m : CobraModel)
    (h : get_status lp = "infeasible" ∨ get_status lp = "unbounded" ∨
         get_status lp = "failed") :
    format_solution lp m =
      { objective_value := none, x := none, x_dict := none, y := none,
        y_dict := none, status := get_status lp } := by
  rw [format_solution_eq]
  rw [if_pos (by rcases h with h | h | h <;> rw [h] <;> decide)]

theorem format_solution_status_only_witness :
    format_solution lpInfeasible exampleModel =
      { objective_value := none, x := none, x_dict := none, y := none,
        y_dict := none, status := get_status lpInfeasible } :=
  format_solution_status_only lpInfeasible exampleModel (Or.inl rfl)

/-- C4: in a Solution extracted with status optimal or time_limit, the
dual values `y` and the metabolite-keyed dual mapping `y_dict` are
populated if and only if the problem contains no integer-kind variables;
and for a problem containing an integer-kind variable they are
structurally absent regardless of status. -/
theorem format_solution_duals_iff_continuous (lp : LP) (m : CobraModel) :
    ((get_status lp = "optimal" ∨ get_status lp = "time_limit") →
      (((format_solution lp m).y.isSome ∧ (format_solution lp m).y_dict.isSome) ↔
        ∀ v ∈ lp.vars, v.vtype ≠ GRB.INTEGER)) ∧
    ((∃ v ∈ lp.vars, v.vtype = GRB.INTEGER) →
      (format_solution lp m).y = none ∧ (format_solution lp m).y_dict = none) := by
  have hmip_iff : lp.isMIP = true ↔ ∃ v ∈ lp.vars, v.vtype = GRB.INTEGER := by
    simp [LP.isMIP, List.any_eq_true]
  constructor
  · intro hs
    rw [format_solution_eq]
    rw [if_neg (not_not_intro (by rcases hs with hs | hs <;> rw [hs] <;> decide))]
    by_cases hm : lp.isMIP = true
    · rw [if_pos hm]
      obtain ⟨v, hv, hk⟩ := hmip_iff.mp hm
      simp only [Option.isSome_none, Bool.false_eq_true, false_and, false_iff,
        not_forall]
      exact ⟨v, hv, fun hne => hne hk⟩
    · rw [if_neg hm]
      simp only [Option.isSome_some, and_self, true_iff]
      intro v hv hk
      exact hm (hmip_iff.mpr ⟨v, hv, hk⟩)
  · intro hex
    have hm : lp.isMIP = true := hmip_iff.mpr hex
    rw [format_solution_eq]
    by_cases hst : ¬ (get_status lp ∈ ["optimal", "time_limit"])
    · rw [if_pos hst]
      exact ⟨rfl, rfl⟩
    · rw [if_neg hst, if_pos hm]
      exact ⟨rfl, rfl⟩

theorem format_solution_duals_iff_continuous_witness :
    (format_solution lpMIPOptimal exampleModel).y = none ∧
    (format_solution lpMIPOptimal exampleModel).y_dict = none :=
  (format_solution_duals_iff_continuous lpMIPOptimal exampleModel).2
    ⟨{ lb := 0, ub := 1, obj := 1, vtype := GRB.INTEGER, name := "0", X := 1 },
     by simp [lpMIPOptimal, LP.empty], rfl⟩

/-- C10: `update_problem` always returns None; with a truthy
`copy_problem` all rewrites land on a local duplicate and the caller's
problem is unchanged (the caller never receives the updated copy); and the
body's rewrites set each variable's bounds and objective coefficient from
the positionally corresponding reaction. -/
theorem update_problem_copy_frame (lp : LP) (m : CobraModel) (kwargs : Dict) :
    (update_problem lp m kwargs).2.1 = none ∧
    ((alookup "copy_problem" kwargs).map PValue.isTruthy = some true →
      (update_problem lp m kwargs).2.2 = lp) ∧
    (∀ i (hv : i < (update_problem_body lp m kwargs).vars.length)
        (hr : i < m.reactions.length),
      ((update_problem_body lp m kwargs).vars.get ⟨i, hv⟩).lb =
        (m.reactions.get ⟨i, hr⟩).lower_bound ∧
      ((update_problem_body lp m kwargs).vars.get ⟨i, hv⟩).ub =
        (m.reactions.get ⟨i, hr⟩).upper_bound ∧
      ((update_problem_body lp m kwargs).vars.get ⟨i, hv⟩).obj =
        (m.reactions.get ⟨i, hr⟩).objective_coefficient) := by
  refine ⟨by simp [update_problem], ?_, ?_⟩
  · intro h
    cases halk : alookup "copy_problem" kwargs with
    | none => rw [halk] at h; exact absurd h (by simp)
    | some v =>
      rw [halk] at h
      simp at h
      simp [update_problem, halk, h]
  · intro i hv hr
    unfold update_problem_body at hv ⊢
    exact updateVarsFromReactions_get _ _ i hv hr

theorem update_problem_copy_frame_witness :
    (update_problem lpMIPOptimal exampleModel [("copy_problem", PValue.bool true)]).2.2 =
      lpMIPOptimal ∧
    (update_problem lpMIPOptimal exampleModel [("copy_problem", PValue.bool true)]).2.1 =
      none := by
  have h := update_problem_copy_frame lpMIPOptimal exampleModel
    [("copy_problem", PValue.bool true)]
  exact ⟨h.2.1 rfl, h.1⟩

/-- C5 (code bug evidence): applying `set_quadratic_objective` with the
single new entry `(1,1) ↦ 4` to `lpPriorQuad` — whose objective already
carries the quadratic term `1·x₀x₀` — leaves an objective whose quadratic
part is exactly the scaled new term and no longer contains the prior term:
only the linear component of the old objective survives, contradicting the
source's own comment "this adds to the existing quadratic objectives". -/
theorem set_quadratic_objective_discards_prior_quad :
    (set_quadratic_objective lpPriorQuad [((1, 1), (4 : ℚ))]).toOption.map
      (fun lp => lp.quadObjective.map QuadExpr.quadTerms) =
      some (some [((4 : ℚ) * (1 / 2), 1, 1)]) ∧
    ((4 : ℚ) * (1 / 2) = 2) ∧
    (((1 : ℚ), (0 : Nat), (0 : Nat)) ∈ [((4 : ℚ) * (1 / 2), (1 : Nat), (1 : Nat))] ↔ False) := by
  refine ⟨rfl, by norm_num, ?_⟩
  simp only [List.mem_singleton, iff_false]
  intro h
  have := congrArg (fun t => t.2.1) h
  simp at this

/-- C6: for every entry `((row, col), value)` of the supplied quadratic
component, `set_quadratic_objective` adds a quadratic term with
coefficient `value × 0.5` on the `(row, col)` variable pair — the
resulting quadratic part is exactly the entry list scaled by one half, so
its value at any point x is ½·xᵀQx. -/
theorem set_quadratic_objective_half_scaling (lp : LP)
    (Q : List ((Nat × Nat) × ℚ)) (lp' : LP)
    (h : set_quadratic_objective lp Q = .ok lp') (x : List ℚ) :
    lp'.quadObjective.map QuadExpr.quadTerms =
      some (Q.map (fun e => (e.2 * (1 / 2 : ℚ), e.1.1, e.1.2))) ∧
    lp'.quadObjective.map (fun q => q.evalQuad x) =
      some ((1 / 2 : ℚ) * quadFormValue Q x) := by
  cases hq : addScaledQuadTerms lp.vars.length Q with
  | error e =>
    simp only [set_quadratic_objective, hq] at h
    exact absurd h (by simp)
  | ok ts =>
    have hts := addScaledQuadTerms_ok lp.vars.length Q ts hq
    simp only [set_quadratic_objective, hq] at h
    injection h with h
    subst h
    subst hts
    refine ⟨rfl, ?_⟩
    simp only [Option.map_some']
    congr 1
    unfold QuadExpr.evalQuad quadFormValue
    rw [List.map_map]
    have : ((fun t : ℚ × Nat × Nat => t.1 * x.getD t.2.1 0 * x.getD t.2.2 0) ∘
        (fun e : (Nat × Nat) × ℚ => (e.2 * (1 / 2 : ℚ), e.1.1, e.1.2))) =
        (fun e : (Nat × Nat) × ℚ => (1 / 2 : ℚ) * (e.2 * x.getD e.1.1 0 * x.getD e.1.2 0)) := by
      funext e
      simp only [Function.comp]
      ring
    rw [this, List.sum_map_mul_left]

theorem set_quadratic_objective_half_scaling_witness :
    ((set_quadratic_objective exampleLP [((0, 1), (3 : ℚ))]).toOption.getD default).quadObjective.map
        QuadExpr.quadTerms =
      some ([(((3 : ℚ) * (1 / 2)), 0, 1)]) :=
  (set_quadratic_objective_half_scaling exampleLP [((0, 1), (3 : ℚ))]
    ((set_quadratic_objective exampleLP [((0, 1), (3 : ℚ))]).toOption.getD default)
    rfl []).1

/-- C1: the ordered attempt list is the caller's preferred method first,
followed by the remaining members of the fixed fallback set {0, 2, 1} in
that fixed order with the preferred method removed from its original
position; the retry loop's result is the first attempt yielding status
"optimal" and otherwise the result of the final attempt, and in particular
the loop stops as soon as an attempt yields "optimal". -/
theorem solve_method_fallback :
    (∀ m : PValue, the_methods_for m =
      m :: ([PValue.int 0, PValue.int 2, PValue.int 1].filter (fun x => x ≠ m))) ∧
    (∀ (att : PValue → LP → LP × String) (ms : List PValue) (lp : LP) (s0 : String),
      runSolveLoop att ms lp s0 =
        (((attemptTrace att ms lp).find? (fun r => r.2 = "optimal")).getD
          ((attemptTrace att ms lp).getLastD (lp, s0)))) ∧
    (∀ (att : PValue → LP → LP × String) (m : PValue) (rest : List PValue)
       (lp : LP) (s0 : String),
      (att m lp).2 = "optimal" → runSolveLoop att (m :: rest) lp s0 = att m lp) := by
  refine ⟨?_, ?_, ?_⟩
  · intro m
    by_cases h0 : m = PValue.int 0
    · subst h0; decide
    · by_cases h2 : m = PValue.int 2
      · subst h2; decide
      · by_cases h1 : m = PValue.int 1
        · subst h1; decide
        · have hmem : m ∉ [PValue.int 0, PValue.int 2, PValue.int 1] := by
            simp [h0, h2, h1]
          simp only [the_methods_for, if_neg hmem]
          congr 1
          rw [List.filter_cons, List.filter_cons, List.filter_cons]
          simp [Ne.symm h0, Ne.symm h2, Ne.symm h1]
  · intro att ms
    induction ms with
    | nil => intro lp s0; rfl
    | cons m rest ih =>
      intro lp s0
      by_cases hopt : (att m lp).2 = "optimal"
      · simp only [runSolveLoop, attemptTrace, if_pos hopt]
        rw [List.find?_cons_of_pos _ (by simp [hopt])]
        rfl
      · simp only [runSolveLoop, attemptTrace, if_neg hopt]
        rw [List.find?_cons_of_neg _ (by simp [hopt]), List.getLastD_cons]
        exact ih (att m lp).1 (att m lp).2
  · intro att m rest lp s0 h
    simp only [runSolveLoop, if_pos h]

theorem solve_method_fallback_witness :
    the_methods_for (PValue.int 5) =
      [PValue.int 5, PValue.int 0, PValue.int 2, PValue.int 1] ∧
    runSolveLoop (fun _ lp => (lp, "optimal")) [PValue.int 0, PValue.int 2]
      LP.empty "" = (LP.empty, "optimal") := by
  constructor
  · rw [solve_method_fallback.1 (PValue.int 5)]
    decide
  · exact solve_method_fallback.2.2 (fun _ lp => (lp, "optimal"))
      (PValue.int 0) [PValue.int 2] LP.empty "" rfl

/-- C2: an exception raised inside a solve attempt is converted to status
"failed" for that attempt and the loop continues with the next method; and
for every model and parameter set that pass build-time validation (no
removed option, problem built successfully) `solve` returns a Solution for
every behaviour of the backend oracle — including one that raises on every
attempt — never propagating a solve-time exception. -/
theorem solve_total_absorbs_exceptions :
    (∀ (opt : LP → Except LP LP) (params : Dict) (m : PValue) (rest : List PValue)
       (lp lpE : LP) (s0 : String),
      solve_problem opt lp (dictInsert params "lp_method" m) = .error lpE →
      runSolveLoop (solveAttempt opt params) (m :: rest) lp s0 =
        runSolveLoop (solveAttempt opt params) rest lpE "failed") ∧
    (∀ (opt : LP → Except LP LP) (model : CobraModel) (kwargs : Dict),
      (∀ k ∈ removed_options, alookup k (dictUpdate parameter_defaults kwargs) = none) →
      isOkE (create_problem_kw model (dictUpdate parameter_defaults kwargs)) = true →
      isOkE (solve opt model kwargs).2 = true) := by
  constructor
  · intro opt params m rest lp lpE s0 h
    have hatt : solveAttempt opt params m lp = (lpE, "failed") := by
      simp [solveAttempt, h]
    simp only [runSolveLoop, hatt]
    rw [if_neg (by decide)]
  · intro opt model kwargs hrem hok
    have hfind : removed_options.find?
        (fun i => (alookup i (dictUpdate parameter_defaults kwargs)).isSome) = none := by
      rw [List.find?_eq_none]
      intro k hk
      simp [hrem k hk]
    simp only [solve, hfind]
    cases hc : create_problem_kw model (dictUpdate parameter_defaults kwargs) with
    | error e => rw [hc] at hok; simp [isOkE] at hok
    | ok lp0 => simp [isOkE]

theorem solve_total_absorbs_exceptions_witness :
    isOkE (solve (fun lp => Except.error lp) exampleModel []).2 = true :=
  solve_total_absorbs_exceptions.2 (fun lp => Except.error lp) exampleModel []
    (by decide) (by rfl)

/-- C7: if the merged parameter set contains any of the three removed
legacy option keys, `solve` raises before any problem is built or any
solve attempt occurs (the outcome is an `optionRemoved` error, with empty
warnings, independent of the backend oracle); the deprecated-but-tolerated
key `error_reporting` instead produces only a non-fatal warning and the
solve proceeds. -/
theorem solve_removed_option_validation :
    (∀ (opt opt' : LP → Except LP LP) (model : CobraModel) (kwargs : Dict) (k : String),
      k ∈ removed_options →
      (alookup k (dictUpdate parameter_defaults kwargs)).isSome = true →
      (solve opt model kwargs).1 = [] ∧
      isOkE (solve opt model kwargs).2 = false ∧
      solve opt model kwargs = solve opt' model kwargs ∧
      ∃ k0, k0 ∈ removed_options ∧
        (solve opt model kwargs).2 = .error (.optionRemoved k0)) ∧
    (∀ (opt : LP → Except LP LP) (model : CobraModel) (kwargs : Dict),
      (∀ k ∈ removed_options, alookup k (dictUpdate parameter_defaults kwargs) = none) →
      (alookup "error_reporting" (dictUpdate parameter_defaults kwargs)).isSome = true →
      isOkE (create_problem_kw model (dictUpdate parameter_defaults kwargs)) = true →
      (solve opt model kwargs).1 = ["error_reporting deprecated"] ∧
      isOkE (solve opt model kwargs).2 = true) := by
  constructor
  · intro opt opt' model kwargs k hk hsome
    cases hf : removed_options.find?
        (fun i => (alookup i (dictUpdate parameter_defaults kwargs)).isSome) with
    | none =>
      exact absurd hsome (by simpa using List.find?_eq_none.mp hf k hk)
    | some k0 =>
      have hk0 := List.mem_of_find?_eq_some hf
      simp only [solve, hf]
      refine ⟨?_, ?_, ?_, k0, hk0, ?_⟩ <;> first | rfl | trivial
  · intro opt model kwargs hrem her hok
    have hfind : removed_options.find?
        (fun i => (alookup i (dictUpdate parameter_defaults kwargs)).isSome) = none := by
      rw [List.find?_eq_none]
      intro k hk
      simp [hrem k hk]
    simp only [solve, hfind, her, if_true]
    cases hc : create_problem_kw model (dictUpdate parameter_defaults kwargs) with
    | error e => rw [hc] at hok; simp [isOkE] at hok
    | ok lp0 => simp [isOkE]

theorem solve_removed_option_validation_witness :
    isOkE (solve (fun lp => Except.ok lp) exampleModel
      [("the_problem", PValue.bool true)]).2 = false ∧
    (solve (fun lp => Except.error lp) exampleModel
      [("error_reporting", PValue.bool true)]).1 = ["error_reporting deprecated"] := by
  have ha := solve_removed_option_validation.1 (fun lp => Except.ok lp)
    (fun lp => Except.ok lp) exampleModel [("the_problem", PValue.bool true)]
    "the_problem" (by decide) (by rfl)
  have hb := solve_removed_option_validation.2 (fun lp => Except.error lp)
    exampleModel [("error_reporting", PValue.bool true)] (by decide) (by rfl) (by rfl)
  exact ⟨ha.2.1, hb.1⟩

/-- C9 counterexample: the canonical names `tolerance_integer` and
`tolerance_barrier` are absent from `parameter_mappings`, and supplying
values under them leaves the built problem identical to one built without
them — these values are silently dropped during `create_problem`, not
translated and applied. -/
theorem tolerance_params_not_translated :
    alookup "tolerance_integer" parameter_mappings = none ∧
    alookup "tolerance_barrier" parameter_mappings = none ∧
    create_problem exampleModel none
        [("tolerance_integer", PValue.num (1 / 2)),
         ("tolerance_barrier", PValue.num (1 / 3))] =
      create_problem exampleModel none [] :=
  ⟨rfl, rfl, rfl⟩

theorem parameter_mappings_range_not_key :
    ∀ p ∈ parameter_mappings, alookup p.2 parameter_mappings = none := by
  decide

theorem paramWrites_no_write_to (name backend : String)
    (huniq : ∀ p ∈ parameter_mappings, p.2 = backend → p.1 = name) :
    ∀ d : Dict, name ∉ keysOf d → backend ∉ keysOf (paramWrites d) := by
  intro d
  induction d with
  | nil => intro _ hmem; simp [paramWrites, keysOf] at hmem
  | cons kv rest ih =>
    intro h
    simp only [keysOf, List.map_cons, List.mem_cons, not_or] at h
    cases hm : alookup kv.1 parameter_mappings with
    | none =>
      rw [paramWrites_cons_skip kv rest hm]
      exact ih h.2
    | some b =>
      by_cases hbs : b = "ModelSense" ∨ b = "objective_sense"
      · rw [paramWrites_cons_sense kv rest b hm hbs]
        exact ih h.2
      · rw [paramWrites_cons_write kv rest b hm hbs]
        have hmem := mem_of_alookup_eq_some kv.1 b parameter_mappings hm
        have hbid : alookup b parameter_mappings = none :=
          parameter_mappings_range_not_key (kv.1, b) hmem
        simp only [keysOf, List.map_cons, List.mem_cons, not_or, hbid]
        refine ⟨?_, ih h.2⟩
        intro hbb
        exact h.1 ((huniq (kv.1, b) hmem hbb.symm).symm)

theorem paramWrites_reverse_lookup (name backend : String)
    (hmapname : alookup name parameter_mappings = some backend)
    (hsen : ¬ (backend = "ModelSense" ∨ backend = "objective_sense"))
    (hid : alookup backend parameter_mappings = none)
    (huniq : ∀ p ∈ parameter_mappings, p.2 = backend → p.1 = name) :
    ∀ d : Dict, (keysOf d).Nodup → ∀ v, alookup name d = some v →
      alookup backend (paramWrites d).reverse = some v := by
  intro d
  induction d with
  | nil => intro _ v hv; simp [alookup] at hv
  | cons kv rest ih =>
    intro hnd v hv
    have hnd' : (keysOf rest).Nodup := by
      simp only [keysOf, List.map_cons, List.nodup_cons] at hnd
      exact hnd.2
    by_cases hk : kv.1 = name
    · have hv0 : kv.2 = v := by
        simp only [alookup, if_pos hk] at hv
        injection hv
      subst hv0
      have hnotin : name ∉ keysOf rest := by
        simp only [keysOf, List.map_cons, List.nodup_cons] at hnd
        rw [← hk]
        exact hnd.1
      have hwk : paramWrites (kv :: rest) = (backend, kv.2) :: paramWrites rest := by
        rw [paramWrites_cons_write kv rest backend (by rw [hk]; exact hmapname) hsen, hid]
      rw [hwk, List.reverse_cons, alookup_append]
      have hnone : alookup backend (paramWrites rest).reverse = none := by
        apply alookup_none_of_not_mem_keys
        intro hmem
        apply paramWrites_no_write_to name backend huniq rest hnotin
        have hrev : keysOf (paramWrites rest).reverse = (keysOf (paramWrites rest)).reverse := by
          simp [keysOf, List.map_reverse]
        rw [hrev] at hmem
        exact List.mem_reverse.mp hmem
      rw [hnone]
      simp [alookup]
    · have hvrest : alookup name rest = some v := by
        simpa only [alookup, if_neg hk] using hv
      have wtail := ih hnd' v hvrest
      cases hm : alookup kv.1 parameter_mappings with
      | none =>
        rw [paramWrites_cons_skip kv rest hm]
        exact wtail
      | some b =>
        by_cases hbs : b = "ModelSense" ∨ b = "objective_sense"
        · rw [paramWrites_cons_sense kv rest b hm hbs]
          exact wtail
        · rw [paramWrites_cons_write kv rest b hm hbs, List.reverse_cons,
            alookup_append, wtail]

/-- C9 (amended): of the five canonical tolerance names, exactly
`tolerance_optimality`, `tolerance_feasibility` and `tolerance_markowitz`
are translated to backend parameter names, and a value supplied under one
of these three canonical names in the merged parameter set is applied to
the backend problem during `create_problem` (it is retrievable from the
built problem's parameter store under the backend name);
`tolerance_integer` and `tolerance_barrier` are not translated and their
values are dropped. -/
theorem tolerance_params_applied (name backend : String) (v : PValue)
    (model : CobraModel) (qc : Option (List ((Nat × Nat) × ℚ)))
    (kwargs : Dict) (lp : LP)
    (hn : (name, backend) ∈ [("tolerance_optimality", "OptimalityTol"),
                             ("tolerance_feasibility", "FeasibilityTol"),
                             ("tolerance_markowitz", "MarkowitzTol")])
    (hv : alookup name (dictUpdate parameter_defaults kwargs) = some v)
    (h : create_problem model qc kwargs = .ok lp) :
    alookup name parameter_mappings = some backend ∧
    alookup backend lp.params = some v := by
  obtain ⟨-, hparams⟩ := create_problem_ok_anatomy model qc kwargs lp h
  have hnd : (keysOf (dictUpdate parameter_defaults kwargs)).Nodup :=
    nodup_keys_dictUpdate kwargs parameter_defaults parameter_defaults_keys_nodup
  simp only [List.mem_cons, List.not_mem_nil, or_false] at hn
  rcases hn with hn | hn | hn
  · rw [Prod.mk.injEq] at hn
    obtain ⟨rfl, rfl⟩ := hn
    refine ⟨rfl, ?_⟩
    rw [hparams, alookup_append,
      paramWrites_reverse_lookup "tolerance_optimality" "OptimalityTol" rfl
        (by decide) (by decide) (by decide)
        (dictUpdate parameter_defaults kwargs) hnd v hv]
  · rw [Prod.mk.injEq] at hn
    obtain ⟨rfl, rfl⟩ := hn
    refine ⟨rfl, ?_⟩
    rw [hparams, alookup_append,
      paramWrites_reverse_lookup "tolerance_feasibility" "FeasibilityTol" rfl
        (by decide) (by decide) (by decide)
        (dictUpdate parameter_defaults kwargs) hnd v hv]
  · rw [Prod.mk.injEq] at hn
    obtain ⟨rfl, rfl⟩ := hn
    refine ⟨rfl, ?_⟩
    rw [hparams, alookup_append,
      paramWrites_reverse_lookup "tolerance_markowitz" "MarkowitzTol" rfl
        (by decide) (by decide) (by decide)
        (dictUpdate parameter_defaults kwargs) hnd v hv]

theorem tolerance_params_applied_witness :
    alookup "tolerance_optimality" parameter_mappings = some "OptimalityTol" ∧
    alookup "OptimalityTol" exampleLPTol.params = some (PValue.num (1 / 2)) :=
  tolerance_params_applied "tolerance_optimality" "OptimalityTol"
    (PValue.num (1 / 2)) exampleModel none
    [("tolerance_optimality", PValue.num (1 / 2))] exampleLPTol
    (by decide) rfl rfl

end GurobiSolver
